import Mathlib

/-!
Verification of the vcx-py VirgoCX API client library.

Shallow embedding of the request-signing, response-formatting and
order-placement logic of the package (src/vcx_py/utils.py,
src/vcx_py/constants.py, src/vcx_py/client.py), together with theorems
settling the specification claims about it.

Conventions used by the embedding:
 - Python dicts are association lists with distinct keys; theorems that
   depend on the dict invariant carry an explicit no-duplicate-keys
   hypothesis.
 - Fallible Python code (raise) is modelled with Except.
 - Machine integers are Nat / Int with explicit reductions mod 2 ^ 32
   where the MD5 algorithm overflows.
 - Numeric order fields are modelled with exact rational arithmetic; a
   value supplied as a decimal literal is the corresponding rational.
-/

set_option maxRecDepth 1000000

/-! ## Python scalar values and their str() representation -/

/-- A Python scalar value as it appears in a request payload. -/
inductive PyVal where
  | pstr (s : String)
  | pint (n : Int)
  | pbool (b : Bool)
  | pnone
  deriving DecidableEq

/-- Python str() of a payload value. -/
def pyStr : PyVal → String
  | .pstr s => s
  | .pint n => toString n
  | .pbool b => if b then "True" else "False"
  | .pnone => "None"

/-- A Python dict of strings to scalar values (association list). -/
abbrev PyDict := List (String × PyVal)

/-- Decidable equality of Except results (used to evaluate concrete
runs of the embedded fallible functions). -/
instance {ε α : Type} [DecidableEq ε] [DecidableEq α] : DecidableEq (Except ε α)
  | .error e, .error f =>
    if h : e = f then .isTrue (congrArg Except.error h)
    else .isFalse (fun hh => h (Except.error.inj hh))
  | .error _, .ok _ => .isFalse Except.noConfusion
  | .ok _, .error _ => .isFalse Except.noConfusion
  | .ok a, .ok b =>
    if h : a = b then .isTrue (congrArg Except.ok h)
    else .isFalse (fun hh => h (Except.ok.inj hh))

/-! ## MD5 (hashlib.md5, RFC 1321) over byte lists -/

/-- UTF-8 encoding of one Unicode scalar value (str.encode). -/
def encodeChar (n : Nat) : List Nat :=
  if n < 0x80 then [n]
  else if n < 0x800 then [0xC0 ||| (n >>> 6), 0x80 ||| (n &&& 0x3F)]
  else if n < 0x10000 then
    [0xE0 ||| (n >>> 12), 0x80 ||| ((n >>> 6) &&& 0x3F), 0x80 ||| (n &&& 0x3F)]
  else
    [0xF0 ||| (n >>> 18), 0x80 ||| ((n >>> 12) &&& 0x3F), 0x80 ||| ((n >>> 6) &&& 0x3F),
      0x80 ||| (n &&& 0x3F)]

/-- UTF-8 bytes of a string (Python str.encode()). -/
def strBytes (s : String) : List Nat :=
  (s.data.map (fun c => encodeChar c.toNat)).flatten

/-- The 64 MD5 sine-derived constants. -/
def md5K : List Nat :=
  [0xd76aa478, 0xe8c7b756, 0x242070db, 0xc1bdceee,
   0xf57c0faf, 0x4787c62a, 0xa8304613, 0xfd469501,
   0x698098d8, 0x8b44f7af, 0xffff5bb1, 0x895cd7be,
   0x6b901122, 0xfd987193, 0xa679438e, 0x49b40821,
   0xf61e2562, 0xc040b340, 0x265e5a51, 0xe9b6c7aa,
   0xd62f105d, 0x02441453, 0xd8a1e681, 0xe7d3fbc8,
   0x21e1cde6, 0xc33707d6, 0xf4d50d87, 0x455a14ed,
   0xa9e3e905, 0xfcefa3f8, 0x676f02d9, 0x8d2a4c8a,
   0xfffa3942, 0x8771f681, 0x6d9d6122, 0xfde5380c,
   0xa4beea44, 0x4bdecfa9, 0xf6bb4b60, 0xbebfbc70,
   0x289b7ec6, 0xeaa127fa, 0xd4ef3085, 0x04881d05,
   0xd9d4d039, 0xe6db99e5, 0x1fa27cf8, 0xc4ac5665,
   0xf4292244, 0x432aff97, 0xab9423a7, 0xfc93a039,
   0x655b59c3, 0x8f0ccc92, 0xffeff47d, 0x85845dd1,
   0x6fa87e4f, 0xfe2ce6e0, 0xa3014314, 0x4e0811a1,
   0xf7537e82, 0xbd3af235, 0x2ad7d2bb, 0xeb86d391]

/-- The 64 MD5 per-round left-rotation amounts. -/
def md5S : List Nat :=
  [7, 12, 17, 22, 7, 12, 17, 22, 7, 12, 17, 22, 7, 12, 17, 22,
   5, 9, 14, 20, 5, 9, 14, 20, 5, 9, 14, 20, 5, 9, 14, 20,
   4, 11, 16, 23, 4, 11, 16, 23, 4, 11, 16, 23, 4, 11, 16, 23,
   6, 10, 15, 21, 6, 10, 15, 21, 6, 10, 15, 21, 6, 10, 15, 21]

/-- Reduction to a 32-bit word. -/
def w32 (n : Nat) : Nat := n % 4294967296

/-- 32-bit left rotation. -/
def rotl32 (x c : Nat) : Nat := w32 (x <<< c) ||| (x >>> (32 - c))

/-- MD5 padding: a 1 bit, zeros to 56 mod 64 bytes, then the 64-bit
little-endian bit length. -/
def md5Pad (msg : List Nat) : List Nat :=
  let len := msg.length
  let zeros := (56 + 64 - ((len + 1) % 64)) % 64
  let bitLen := (8 * len) % (2 ^ 64)
  msg ++ [0x80] ++ List.replicate zeros 0 ++
    (List.range 8).map (fun i => (bitLen >>> (8 * i)) % 256)

/-- Little-endian 32-bit word number g of a 64-byte chunk. -/
def chunkWord (chunk : List Nat) (g : Nat) : Nat :=
  chunk.getD (4 * g) 0 + 256 * chunk.getD (4 * g + 1) 0 +
    65536 * chunk.getD (4 * g + 2) 0 + 16777216 * chunk.getD (4 * g + 3) 0

/-- The 64 MD5 rounds applied to one 64-byte chunk. -/
def md5Mix (chunk : List Nat) (st : Nat × Nat × Nat × Nat) : Nat × Nat × Nat × Nat :=
  let step := fun (st : Nat × Nat × Nat × Nat) (i : Nat) =>
    let (a, b, c, d) := st
    let (f, g) :=
      if i < 16 then ((b &&& c) ||| ((b ^^^ 0xFFFFFFFF) &&& d), i)
      else if i < 32 then ((d &&& b) ||| ((d ^^^ 0xFFFFFFFF) &&& c), (5 * i + 1) % 16)
      else if i < 48 then (b ^^^ c ^^^ d, (3 * i + 5) % 16)
      else (c ^^^ (b ||| (d ^^^ 0xFFFFFFFF)), (7 * i) % 16)
    let f2 := w32 (f + a + md5K.getD i 0 + chunkWord chunk g)
    (d, w32 (b + rotl32 f2 (md5S.getD i 0)), b, c)
  (List.range 64).foldl step st

/-- Split a byte list into 64-byte chunks (fuel-indexed so that it
reduces definitionally). -/
def md5ChunksGo : Nat → List Nat → List (List Nat)
  | 0, _ => []
  | _, [] => []
  | fuel + 1, x :: rest => ((x :: rest).take 64) :: md5ChunksGo fuel ((x :: rest).drop 64)

/-- Split a byte list into 64-byte chunks. -/
def md5Chunks (l : List Nat) : List (List Nat) := md5ChunksGo l.length l

/-- Little-endian byte serialization of a 32-bit word. -/
def wordBytesLE (w : Nat) : List Nat :=
  [w % 256, (w >>> 8) % 256, (w >>> 16) % 256, (w >>> 24) % 256]

/-- The 16-byte MD5 digest of a byte list. -/
def md5Digest (msg : List Nat) : List Nat :=
  let fin := (md5Chunks (md5Pad msg)).foldl
    (fun (st : Nat × Nat × Nat × Nat) chunk =>
      let (a0, b0, c0, d0) := st
      let (a, b, c, d) := md5Mix chunk st
      (w32 (a0 + a), w32 (b0 + b), w32 (c0 + c), w32 (d0 + d)))
    (0x67452301, 0xefcdab89, 0x98badcfe, 0x10325476)
  wordBytesLE fin.1 ++ wordBytesLE fin.2.1 ++ wordBytesLE fin.2.2.1 ++ wordBytesLE fin.2.2.2

/-- Lowercase hexadecimal digit. -/
def hexDigit (n : Nat) : Char :=
  if n < 10 then Char.ofNat (48 + n) else Char.ofNat (87 + n)

/-- Lowercase hexadecimal rendering of a byte list. -/
def bytesHex (bs : List Nat) : String :=
  String.mk (bs.foldr (fun b acc => hexDigit (b / 16 % 16) :: hexDigit (b % 16) :: acc) [])

/-- md5(s.encode()).hexdigest(): the lowercase hex MD5 digest of the
UTF-8 encoding of a string. -/
def md5hex (s : String) : String := bytesHex (md5Digest (strBytes s))

/-! ## vcx_sign (src/vcx_py/utils.py lines 55-67) -/

/-- Lexicographic comparison of character lists by code point (the
order Python uses to compare strings). -/
def charListLe : List Char → List Char → Bool
  | [], _ => true
  | _ :: _, [] => false
  | a :: as, b :: bs =>
    if a.toNat < b.toNat then true
    else if b.toNat < a.toNat then false
    else charListLe as bs

/-- Lexicographic comparison of strings by code point. -/
def strLe (a b : String) : Bool := charListLe a.data b.data

/-- sorted(d.keys()): the keys of a dict in lexicographic order. -/
def sortedKeys (d : PyDict) : List String :=
  (d.map Prod.fst).insertionSort (fun a b => strLe a b = true)

/-- The val_str accumulation loop of vcx_sign: concatenate str of the
values indexed by the sorted keys. -/
def valStr (d : PyDict) : String :=
  (sortedKeys d).foldl (fun acc k => acc ++ pyStr ((d.lookup k).getD .pnone)) ""

/-- vcx_sign: copy the payload, inject the fallback secret under
apiSecret when the payload lacks it (error when none is available),
concatenate str of the values by sorted key and MD5-hash the result. -/
def vcx_sign (dct : PyDict) (api_secret : Option String) : Except String String :=
  let _dct := dct
  if (_dct.lookup "apiSecret").isSome then
    .ok (md5hex (valStr _dct))
  else
    match api_secret with
    | none => .error "API secret is required"
    | some s => .ok (md5hex (valStr (_dct ++ [("apiSecret", .pstr s)])))

/-- Stated from the claim: the payload with the secret injected under
the reserved key apiSecret when the payload lacks it. -/
def withSecret (d : PyDict) (s : String) : PyDict :=
  if (d.lookup "apiSecret").isSome then d else d ++ [("apiSecret", .pstr s)]

/-- Stated from the claim: the concatenation of the string
representations of all values of a dict taken in lexicographic order of
the keys (sorting the entries themselves by key). -/
def lexOrderedConcat (d : PyDict) : String :=
  String.join ((d.insertionSort (fun p q => strLe p.1 q.1 = true)).map (fun p => pyStr p.2))

/-! ## Enumerations (src/vcx_py/constants.py) -/

/-- Enum for the status of an order. -/
inductive OrderStatus where
  | CANCELED
  | PLACED
  | OPEN
  | MATCHING
  | COMPLETED
  deriving DecidableEq

/-- Integer value of an OrderStatus member. -/
def OrderStatus.val : OrderStatus → Int
  | .CANCELED => -1
  | .PLACED => 0
  | .OPEN => 1
  | .MATCHING => 2
  | .COMPLETED => 3

/-- IntEnum value lookup for OrderStatus. -/
def OrderStatus.ofInt (n : Int) : Option OrderStatus :=
  if n = -1 then some .CANCELED
  else if n = 0 then some .PLACED
  else if n = 1 then some .OPEN
  else if n = 2 then some .MATCHING
  else if n = 3 then some .COMPLETED
  else none

/-- Enum for the direction of an order. -/
inductive OrderDirection where
  | BUY
  | SELL
  deriving DecidableEq

/-- Integer value of an OrderDirection member. -/
def OrderDirection.val : OrderDirection → Int
  | .BUY => 1
  | .SELL => 2

/-- IntEnum value lookup for OrderDirection. -/
def OrderDirection.ofInt (n : Int) : Option OrderDirection :=
  if n = 1 then some .BUY else if n = 2 then some .SELL else none

/-- Enum for the type of an order. -/
inductive OrderType where
  | LIMIT
  | MARKET
  | QUICK_TRADE
  deriving DecidableEq

/-- Integer value of an OrderType member. -/
def OrderType.val : OrderType → Int
  | .LIMIT => 1
  | .MARKET => 2
  | .QUICK_TRADE => 3

/-- IntEnum value lookup for OrderType. -/
def OrderType.ofInt (n : Int) : Option OrderType :=
  if n = 1 then some .LIMIT else if n = 2 then some .MARKET
  else if n = 3 then some .QUICK_TRADE else none

/-! ## JSON data and the key-to-enum conversion
(src/vcx_py/utils.py lines 37-52, src/vcx_py/constants.py lines 100-116) -/

/-- A JSON value as decoded from a response, extended with the decoded
enum members that output_enumify substitutes in place of raw values. -/
inductive Json where
  | jnull
  | jbool (b : Bool)
  | jint (n : Int)
  | jstr (s : String)
  | jstatus (e : OrderStatus)
  | jdirection (e : OrderDirection)
  | jordertype (e : OrderType)
  | jlist (xs : List Json)
  | jdict (kvs : List (String × Json))

/-- Calling the IntEnum OrderStatus on a raw JSON value: accepts the
integer (or bool, which Python treats as an int) codes of the members
and raises ValueError otherwise. -/
def OrderStatus.ofJson : Json → Except String Json
  | .jint n =>
    match OrderStatus.ofInt n with
    | some e => .ok (.jstatus e)
    | none => .error "is not a valid OrderStatus"
  | .jbool b =>
    match OrderStatus.ofInt (if b then 1 else 0) with
    | some e => .ok (.jstatus e)
    | none => .error "is not a valid OrderStatus"
  | _ => .error "is not a valid OrderStatus"

/-- Calling the IntEnum OrderDirection on a raw JSON value. -/
def OrderDirection.ofJson : Json → Except String Json
  | .jint n =>
    match OrderDirection.ofInt n with
    | some e => .ok (.jdirection e)
    | none => .error "is not a valid OrderDirection"
  | .jbool b =>
    match OrderDirection.ofInt (if b then 1 else 0) with
    | some e => .ok (.jdirection e)
    | none => .error "is not a valid OrderDirection"
  | _ => .error "is not a valid OrderDirection"

/-- Calling the IntEnum OrderType on a raw JSON value. -/
def OrderType.ofJson : Json → Except String Json
  | .jint n =>
    match OrderType.ofInt n with
    | some e => .ok (.jordertype e)
    | none => .error "is not a valid OrderType"
  | .jbool b =>
    match OrderType.ofInt (if b then 1 else 0) with
    | some e => .ok (.jordertype e)
    | none => .error "is not a valid OrderType"
  | _ => .error "is not a valid OrderType"

/-- OrderDirection.from_str: parse a trade side from its lowercased
name, raising ValueError on anything else. -/
def OrderDirection.from_str : Json → Except String Json
  | .jstr s =>
    if s.toLower = "buy" then .ok (.jdirection .BUY)
    else if s.toLower = "sell" then .ok (.jdirection .SELL)
    else .error "Invalid order direction"
  | _ => .error "Invalid order direction"

/-- Mapping of keys to enums in the typical case. -/
def TYPICAL_KEY_TO_ENUM (k : String) : Option (Json → Except String Json) :=
  if k = "status" then some OrderStatus.ofJson
  else if k = "direction" then some OrderDirection.ofJson
  else if k = "type" then some OrderType.ofJson
  else none

/-- Mapping of keys to enums in the atypical case. -/
def ATYPICAL_KEY_TO_ENUM (k : String) : Option (Json → Except String Json) :=
  if k = "status" then some OrderStatus.ofJson
  else if k = "category" then some OrderType.ofJson
  else if k = "type" then some OrderDirection.from_str
  else none

/-- The active mapping selected by the typical flag. -/
def keyToEnum (typical : Bool) : String → Option (Json → Except String Json) :=
  if typical then TYPICAL_KEY_TO_ENUM else ATYPICAL_KEY_TO_ENUM

/-- The dict branch of output_enumify: each entry whose key is in the
mapping has its value replaced by the enum applied to the raw value
(propagating its ValueError); other entries pass through unchanged.
Values are not recursed into. -/
def enumifyPairs (mapping : String → Option (Json → Except String Json)) :
    List (String × Json) → Except String (List (String × Json))
  | [] => .ok []
  | (k, v) :: rest =>
    match (match mapping k with | some f => f v | none => .ok v) with
    | .error e => .error e
    | .ok v2 =>
      match enumifyPairs mapping rest with
      | .error e => .error e
      | .ok rest2 => .ok ((k, v2) :: rest2)

mutual

/-- output_enumify: converts dictionary values to their respective
enums; lists are mapped element-wise, anything else passes through. -/
def output_enumify (inp : Json) (typical : Bool) : Except String Json :=
  match inp with
  | .jdict kvs => (enumifyPairs (keyToEnum typical) kvs).map .jdict
  | .jlist xs => (enumifyList xs typical).map .jlist
  | x => .ok x

/-- Element-wise recursion of output_enumify over a list node. -/
def enumifyList (xs : List Json) (typical : Bool) : Except String (List Json) :=
  match xs with
  | [] => .ok []
  | x :: rest =>
    match output_enumify x typical with
    | .error e => .error e
    | .ok y =>
      match enumifyList rest typical with
      | .error e => .error e
      | .ok ys => .ok (y :: ys)

end

/-- Stated from the claim: the result of processing one dict entry. -/
def entryResult (mapping : String → Option (Json → Except String Json))
    (kv : String × Json) : Except String (String × Json) :=
  match mapping kv.1 with
  | some f => (f kv.2).map (fun w => (kv.1, w))
  | none => .ok kv

mutual

/-- Stated from the claim: a walker that recurses through dict and list
nodes at every depth, replacing mapped keys in every dict node,
including dicts nested inside dicts. -/
def enumify_deep (inp : Json) (typical : Bool) : Except String Json :=
  match inp with
  | .jdict kvs => (deepPairs kvs typical).map .jdict
  | .jlist xs => (deepList xs typical).map .jlist
  | x => .ok x

/-- Dict entries of the claimed deep walk: mapped keys are replaced by
the enum of the raw value, unknown keys are recursed into. -/
def deepPairs (kvs : List (String × Json)) (typical : Bool) :
    Except String (List (String × Json)) :=
  match kvs with
  | [] => .ok []
  | (k, v) :: rest =>
    match (match keyToEnum typical k with
           | some f => f v
           | none => enumify_deep v typical) with
    | .error e => .error e
    | .ok v2 =>
      match deepPairs rest typical with
      | .error e => .error e
      | .ok rest2 => .ok ((k, v2) :: rest2)

/-- List elements of the claimed deep walk. -/
def deepList (xs : List Json) (typical : Bool) : Except String (List Json) :=
  match xs with
  | [] => .ok []
  | x :: rest =>
    match enumify_deep x typical with
    | .error e => .error e
    | .ok y =>
      match deepList rest typical with
      | .error e => .error e
      | .ok ys => .ok (y :: ys)

end

/-! ## result_formatter (src/vcx_py/utils.py lines 70-88) -/

/-- The transport response handed to the formatter: HTTP status code,
raw text body, and the parsed JSON body (none when the body is not
parseable as JSON). -/
structure Response where
  status_code : Int
  text : String
  body : Option Json

/-- The distinct error kinds the formatter can surface. -/
inductive FmtError where
  | statusException (code : Int) (text : String)
  | apiError (code : Json) (body : Json)
  | jsonDecodeError
  | keyError (k : String)
  | valueError (msg : String)

/-- Subscript access res[k] on a parsed JSON body. -/
def jsonGet (j : Json) (k : String) : Option Json :=
  match j with
  | .jdict kvs => kvs.lookup k
  | _ => none

/-- Python equality of a decoded JSON code field with the int 0. -/
def pyEqZero : Json → Bool
  | .jint n => n = 0
  | .jbool b => !b
  | _ => false

/-- result_formatter: raise VirgoCXStatusException on a non-200 status
(before the body is parsed as JSON), parse the envelope, raise
VirgoCXAPIError on a non-zero code, and return the enum-converted data
field. -/
def result_formatter (typical_map : Bool) (res : Response) : Except FmtError Json :=
  if res.status_code ≠ 200 then
    .error (.statusException res.status_code res.text)
  else
    match res.body with
    | none => .error .jsonDecodeError
    | some j =>
      match jsonGet j "code" with
      | none => .error (.keyError "code")
      | some c =>
        if ¬ pyEqZero c then .error (.apiError c j)
        else
          match jsonGet j "data" with
          | none => .error (.keyError "data")
          | some d => (output_enumify d typical_map).mapError .valueError

/-! ## Decimal-place bookkeeping for order values
(src/vcx_py/client.py lines 158-196) -/

/-- Multiplicity of a prime factor in a natural number (fuel-indexed so
that it reduces definitionally). -/
def countFactorGo (p : Nat) : Nat → Nat → Nat
  | 0, _ => 0
  | fuel + 1, n => if 2 ≤ p ∧ n ≠ 0 ∧ n % p = 0 then countFactorGo p fuel (n / p) + 1 else 0

/-- Multiplicity of a factor p in n. -/
def countFactor (p n : Nat) : Nat := countFactorGo p n n

/-- The number of digits after the decimal point of the (terminating)
decimal representation of a rational: len(str(x).split(".")[1]) for a
value written as a decimal literal. -/
def decimalLen (q : ℚ) : Nat := max (countFactor 2 q.den) (countFactor 5 q.den)

/-- Round a rational to the nearest integer, ties to the even integer
(the rounding used by Python round()). -/
def roundHalfEven (x : ℚ) : ℤ :=
  if x - ⌊x⌋ < 1 / 2 then ⌊x⌋
  else if 1 / 2 < x - ⌊x⌋ then ⌊x⌋ + 1
  else if ⌊x⌋ % 2 = 0 then ⌊x⌋ else ⌊x⌋ + 1

/-- Python round(x, n): round to n decimal places, ties to even. -/
def pyRound (x : ℚ) (n : Nat) : ℚ := (roundHalfEven (x * 10 ^ n) : ℚ) / 10 ^ n

/-- Stated from the claim: x rounded down (truncated) to n decimal
places. -/
def truncateTo (x : ℚ) (n : Nat) : ℚ := (⌊x * 10 ^ n⌋ : ℚ) / 10 ^ n

/-! ## place_order (src/vcx_py/client.py lines 112-204) -/

/-- The per-symbol formatting metadata cached from the ticker listing. -/
structure FmtData where
  price_decimals : Nat
  qty_decimals : Nat
  min_total : ℚ
  deriving DecidableEq

/-- The order request assembled by place_order: the payload fields that
would be posted, together with the precision-correction warnings
emitted while assembling them. -/
structure OrderRequest where
  symbol : String
  category : Int
  direction : Int
  country : Int
  price : Option ℚ
  qty : Option ℚ
  total : Option ℚ
  warned_price : Bool
  warned_qty : Bool
  warned_total : Bool
  deriving DecidableEq

/-- The errors place_order can raise before posting the request. -/
inductive POErr where
  | valueError (msg : String)
  | typeError (msg : String)
  | zeroDivisionError
  | notFound (symbol : String)
  deriving DecidableEq

/-- Usage errors: invalid or missing arguments detected before any
network call (ValueError and TypeError, as opposed to the cache-miss
exception). -/
def POErr.isUsage : POErr → Bool
  | .valueError _ => true
  | .typeError _ => true
  | _ => false

/-- One entry of the discounted ticker listing returned by
get_discount. -/
structure Quote where
  Ask : ℚ
  Bid : ℚ
  deriving DecidableEq

/-- VirgoCXClient.__extract_market_price__: the discounted ask price
for a buy, the discounted bid price otherwise. -/
def __extract_market_price__ (direction : Int) (quote : Quote) : ℚ :=
  if direction = OrderDirection.BUY.val then quote.Ask else quote.Bid

/-- The corrected form of one supplied value: when it carries more
decimal places than the symbol allows, round to the allowed precision;
otherwise keep it as supplied. -/
def correctedVal (v : ℚ) (allowed : Nat) : ℚ :=
  if decimalLen v > allowed then pyRound v allowed else v

/-- Whether the precision-correction warning is emitted for one
supplied value. -/
def warnVal (v : ℚ) (allowed : Nat) : Bool := decimalLen v > allowed

/-- The conversion-handling block at the top of place_order
(src/vcx_py/client.py lines 137-156): returns the (price, qty, total)
triple that survives to the payload stage, or the exception raised. -/
def convertArgs (category direction : Int) (price qty total : Option ℚ)
    (handle_conversions : Bool) (market_price_kwarg : Option ℚ)
    (discount_quote : Quote) : Except POErr (Option ℚ × Option ℚ × Option ℚ) :=
  if category = OrderType.LIMIT.val then
    match price with
    | none => .error (.valueError "Price is required for limit orders")
    | some p =>
      match qty with
      | none =>
        if ¬ handle_conversions then
          .error (.valueError "Quantity is required for limit orders")
        else
          match total with
          | none => .error (.typeError "unsupported operand type for division")
          | some t =>
            if p = 0 then .error .zeroDivisionError
            else .ok (some p, some (t / p), none)
      | some q => .ok (some p, some q, total)
  else
    if total = none ∧ direction = OrderDirection.BUY.val then
      if ¬ handle_conversions then
        .error (.valueError "Total is required for non-limit buy orders")
      else
        match qty with
        | none => .error (.typeError "unsupported operand type for multiplication")
        | some q =>
          .ok (price, none,
            some (q * (match market_price_kwarg with
                       | some v => v
                       | none => __extract_market_price__ direction discount_quote)))
    else .ok (price, qty, total)

/-- VirgoCXClient.place_order. The category and direction arguments are
the integer codes of the respective enums (the source converts enum
members to their value on entry). The discount_quote argument is the
quote that get_discount would return for the symbol; the market_price
keyword argument, when present, short-circuits that network fetch. The
returned OrderRequest is the payload that would be signed and posted;
an error is an exception raised before any request is sent. -/
def place_order (fmt_data_cache : List (String × FmtData)) (symbol : String)
    (category direction : Int) (price qty total : Option ℚ)
    (handle_conversions : Bool) (market_price_kwarg : Option ℚ)
    (discount_quote : Quote) : Except POErr OrderRequest :=
  match convertArgs category direction price qty total handle_conversions
      market_price_kwarg discount_quote with
  | .error e => .error e
  | .ok (price2, qty2, total2) =>
    match fmt_data_cache.lookup symbol with
    | none => .error (.notFound symbol)
    | some fmt_data =>
      match total2 with
      | none =>
        .ok { symbol := symbol, category := category, direction := direction, country := 1,
              price := price2.map (fun p => correctedVal p fmt_data.price_decimals),
              qty := qty2.map (fun q => correctedVal q fmt_data.qty_decimals),
              total := none,
              warned_price := match price2 with
                              | none => false
                              | some p => warnVal p fmt_data.price_decimals,
              warned_qty := match qty2 with
                            | none => false
                            | some q => warnVal q fmt_data.qty_decimals,
              warned_total := false }
      | some t =>
        if t < fmt_data.min_total then
          .error (.valueError "Total is below the minimum allowed")
        else
          .ok { symbol := symbol, category := category, direction := direction, country := 1,
                price := price2.map (fun p => correctedVal p fmt_data.price_decimals),
                qty := qty2.map (fun q => correctedVal q fmt_data.qty_decimals),
                total := some (correctedVal t fmt_data.price_decimals),
                warned_price := match price2 with
                                | none => false
                                | some p => warnVal p fmt_data.price_decimals,
                warned_qty := match qty2 with
                              | none => false
                              | some q => warnVal q fmt_data.qty_decimals,
                warned_total := warnVal t fmt_data.price_decimals }

/-! ## Helper lemmas: the lexicographic key order -/

theorem charListLe_total : ∀ (x y : List Char), charListLe x y = true ∨ charListLe y x = true
  | [], _ => Or.inl rfl
  | _ :: _, [] => Or.inr rfl
  | a :: as, b :: bs => by
    simp only [charListLe]
    rcases Nat.lt_trichotomy a.toNat b.toNat with h | h | h
    · left
      simp [h]
    · have h2 : ¬ a.toNat < b.toNat := by omega
      have h3 : ¬ b.toNat < a.toNat := by omega
      simp only [h2, h3, if_false]
      exact charListLe_total as bs
    · right
      simp [h]

theorem charListLe_trans : ∀ {x y z : List Char}, charListLe x y = true →
    charListLe y z = true → charListLe x z = true
  | [], _, _, _, _ => rfl
  | _ :: _, [], _, hxy, _ => by simp [charListLe] at hxy
  | _ :: _, _ :: _, [], _, hyz => by simp [charListLe] at hyz
  | a :: as, b :: bs, c :: cs, hxy, hyz => by
    simp only [charListLe] at hxy hyz ⊢
    rcases Nat.lt_trichotomy a.toNat b.toNat with hab | hab | hab
    · rcases Nat.lt_trichotomy b.toNat c.toNat with hbc | hbc | hbc
      · have hac : a.toNat < c.toNat := by omega
        simp [hac]
      · have hac : a.toNat < c.toNat := by omega
        simp [hac]
      · have h1 : ¬ b.toNat < c.toNat := by omega
        simp [h1, hbc] at hyz
    · rcases Nat.lt_trichotomy b.toNat c.toNat with hbc | hbc | hbc
      · have hac : a.toNat < c.toNat := by omega
        simp [hac]
      · have h1 : ¬ a.toNat < b.toNat := by omega
        have h2 : ¬ b.toNat < a.toNat := by omega
        have h3 : ¬ b.toNat < c.toNat := by omega
        have h4 : ¬ c.toNat < b.toNat := by omega
        have h5 : ¬ a.toNat < c.toNat := by omega
        have h6 : ¬ c.toNat < a.toNat := by omega
        simp only [h1, h2, if_false] at hxy
        simp only [h3, h4, if_false] at hyz
        simp only [h5, h6, if_false]
        exact charListLe_trans hxy hyz
      · have h3 : ¬ b.toNat < c.toNat := by omega
        simp [h3, hbc] at hyz
    · have h1 : ¬ a.toNat < b.toNat := by omega
      simp [h1, hab] at hxy

theorem charListLe_antisymm : ∀ {x y : List Char}, charListLe x y = true →
    charListLe y x = true → x = y
  | [], [], _, _ => rfl
  | [], _ :: _, _, hyx => by simp [charListLe] at hyx
  | _ :: _, [], hxy, _ => by simp [charListLe] at hxy
  | a :: as, b :: bs, hxy, hyx => by
    simp only [charListLe] at hxy hyx
    rcases Nat.lt_trichotomy a.toNat b.toNat with hab | hab | hab
    · have h1 : ¬ b.toNat < a.toNat := by omega
      simp [h1, hab] at hyx
    · have h1 : ¬ a.toNat < b.toNat := by omega
      have h2 : ¬ b.toNat < a.toNat := by omega
      simp only [h1, h2, if_false] at hxy hyx
      have hEq : a = b := Char.eq_of_val_eq (UInt32.ext hab)
      rw [hEq, charListLe_antisymm hxy hyx]
    · have h1 : ¬ a.toNat < b.toNat := by omega
      simp [h1, hab] at hxy

theorem strLe_total (a b : String) : strLe a b = true ∨ strLe b a = true :=
  charListLe_total a.data b.data

theorem strLe_trans {a b c : String} (h1 : strLe a b = true) (h2 : strLe b c = true) :
    strLe a c = true :=
  charListLe_trans h1 h2

theorem strLe_antisymm {a b : String} (h1 : strLe a b = true) (h2 : strLe b a = true) :
    a = b := by
  cases a with
  | mk da =>
    cases b with
    | mk db =>
      exact congrArg String.mk (charListLe_antisymm h1 h2)

instance : IsTotal String (fun a b => strLe a b = true) := ⟨strLe_total⟩

instance : IsTrans String (fun a b => strLe a b = true) :=
  ⟨fun _ _ _ => strLe_trans⟩

instance : IsTotal (String × PyVal) (fun p q => strLe p.1 q.1 = true) :=
  ⟨fun p q => strLe_total p.1 q.1⟩

instance : IsTrans (String × PyVal) (fun p q => strLe p.1 q.1 = true) :=
  ⟨fun _ _ _ => strLe_trans⟩

instance : IsAntisymm (String × PyVal) (fun p q => strLe p.1 q.1 = true ∧ p.1 ≠ q.1) :=
  ⟨fun _ _ h1 h2 => absurd (strLe_antisymm h1.1 h2.1) h1.2⟩

/-! ## Helper lemmas: association-list lookup under the dict invariant -/

theorem lookup_eq_some_of_mem : ∀ {d : PyDict} {k : String} {v : PyVal},
    (k, v) ∈ d → (d.map Prod.fst).Nodup → d.lookup k = some v
  | [], _, _, hm, _ => absurd hm (List.not_mem_nil _)
  | (k2, v2) :: rest, k, v, hm, hnd => by
    rcases List.mem_cons.mp hm with h | h
    · obtain ⟨hk, hv⟩ := Prod.mk.injEq .. ▸ h
      subst hk
      subst hv
      simp [List.lookup]
    · have hne : k ≠ k2 := by
        intro hEq
        subst hEq
        have : k ∉ rest.map Prod.fst := (List.nodup_cons.mp hnd).1
        exact this (List.mem_map.mpr ⟨(k, v), h, rfl⟩)
    
      have : (k == k2) = false := by
        simp [hne]
      simp only [List.lookup, this]
      exact lookup_eq_some_of_mem h (List.nodup_cons.mp hnd).2

theorem lookup_eq_none_iff : ∀ {d : PyDict} {k : String},
    d.lookup k = none ↔ k ∉ d.map Prod.fst
  | [], _ => by simp [List.lookup]
  | (k2, v2) :: rest, k => by
    by_cases h : k = k2
    · subst h
      simp [List.lookup]
    · have hb : (k == k2) = false := by simp [h]
      simp only [List.lookup, hb, List.map_cons, List.mem_cons]
      rw [lookup_eq_none_iff]
      simp [h]

theorem mem_of_lookup_eq_some : ∀ {d : PyDict} {k : String} {v : PyVal},
    d.lookup k = some v → (k, v) ∈ d
  | [], _, _, h => by simp [List.lookup] at h
  | (k2, v2) :: rest, k, v, h => by
    by_cases hk : k = k2
    · subst hk
      have hb : (k == k) = true := beq_self_eq_true k
      simp only [List.lookup, hb] at h
      simp [← Option.some_inj.mp h]
    · have hb : (k == k2) = false := by simp [hk]
      simp only [List.lookup, hb] at h
      exact List.mem_cons_of_mem _ (mem_of_lookup_eq_some h)

theorem lookup_eq_of_perm {d1 d2 : PyDict} (hp : d1.Perm d2)
    (hnd : (d1.map Prod.fst).Nodup) (k : String) : d1.lookup k = d2.lookup k := by
  have hnd2 : (d2.map Prod.fst).Nodup := (hp.map Prod.fst).nodup_iff.mp hnd
  cases hc : d1.lookup k with
  | none =>
    have hk : k ∉ d2.map Prod.fst := by
      intro hmem
      exact (lookup_eq_none_iff.mp hc) ((hp.map Prod.fst).mem_iff.mpr hmem)
    exact (lookup_eq_none_iff.mpr hk).symm
  | some v =>
    exact (lookup_eq_some_of_mem (hp.mem_iff.mp (mem_of_lookup_eq_some hc)) hnd2).symm

/-! ## Helper lemmas: sorting the entries versus sorting the keys -/

theorem map_fst_orderedInsert : ∀ (p : String × PyVal) (l : List (String × PyVal)),
    (List.orderedInsert (fun p q => strLe p.1 q.1 = true) p l).map Prod.fst
      = List.orderedInsert (fun a b => strLe a b = true) p.1 (l.map Prod.fst)
  | _, [] => rfl
  | p, q :: t => by
    simp only [List.orderedInsert, List.map_cons]
    by_cases h : strLe p.1 q.1 = true
    · rw [if_pos h, if_pos h]
      simp
    · rw [if_neg h, if_neg h, List.map_cons, map_fst_orderedInsert p t]

theorem map_fst_insertionSort : ∀ (l : List (String × PyVal)),
    (l.insertionSort (fun p q => strLe p.1 q.1 = true)).map Prod.fst
      = (l.map Prod.fst).insertionSort (fun a b => strLe a b = true)
  | [] => rfl
  | p :: t => by
    simp only [List.insertionSort, List.map_cons]
    rw [map_fst_orderedInsert, map_fst_insertionSort t]

theorem sortPairs_eq_of_perm {d1 d2 : PyDict} (hp : d1.Perm d2)
    (hnd : (d1.map Prod.fst).Nodup) :
    d1.insertionSort (fun p q => strLe p.1 q.1 = true)
      = d2.insertionSort (fun p q => strLe p.1 q.1 = true) := by
  set r := fun p q : String × PyVal => strLe p.1 q.1 = true with hr
  have hperm : (d1.insertionSort r).Perm (d2.insertionSort r) :=
    (List.perm_insertionSort r d1).trans (hp.trans (List.perm_insertionSort r d2).symm)
  have hnd2 : (d2.map Prod.fst).Nodup := (hp.map Prod.fst).nodup_iff.mp hnd
  have key : ∀ (d : PyDict), (d.map Prod.fst).Nodup →
      List.Sorted (fun p q : String × PyVal => strLe p.1 q.1 = true ∧ p.1 ≠ q.1)
        (d.insertionSort r) := by
    intro d hn
    have hs : List.Sorted r (d.insertionSort r) := List.sorted_insertionSort r d
    have hkeys : ((d.insertionSort r).map Prod.fst).Nodup :=
      (((List.perm_insertionSort r d).map Prod.fst).nodup_iff).mpr hn
    have hne : List.Pairwise (fun p q : String × PyVal => p.1 ≠ q.1) (d.insertionSort r) :=
      List.pairwise_map.mp hkeys
    exact hs.and hne
  exact List.eq_of_perm_of_sorted hperm (key d1 hnd) (key d2 hnd2)

/-! ## Helper lemmas: the signing concatenation -/

theorem valStr_eq_lexOrderedConcat {d : PyDict} (hnd : (d.map Prod.fst).Nodup) :
    valStr d = lexOrderedConcat d := by
  unfold valStr lexOrderedConcat sortedKeys
  rw [← map_fst_insertionSort d]
  set s := d.insertionSort (fun p q => strLe p.1 q.1 = true) with hs
  have hj : ∀ (l : List String),
      l.foldl (fun acc k => acc ++ pyStr ((d.lookup k).getD .pnone)) ""
        = String.join (l.map (fun k => pyStr ((d.lookup k).getD .pnone))) := by
    intro l
    rw [String.join, List.foldl_map]
  rw [hj, List.map_map]
  congr 1
  apply List.map_congr_left
  intro p hmem
  have hpd : p ∈ d := (List.perm_insertionSort _ d).mem_iff.mp hmem
  have : d.lookup p.1 = some p.2 := lookup_eq_some_of_mem hpd hnd
  simp [Function.comp, this]

/-! ## Helper lemmas: digest length -/

theorem length_md5Digest (msg : List Nat) : (md5Digest msg).length = 16 := by
  unfold md5Digest wordBytesLE
  simp

theorem length_bytesHex (bs : List Nat) : (bytesHex bs).length = 2 * bs.length := by
  have key : ∀ l : List Nat,
      (l.foldr (fun b acc => hexDigit (b / 16 % 16) :: hexDigit (b % 16) :: acc) []).length
        = 2 * l.length := by
    intro l
    induction l with
    | nil => rfl
    | cons x t ih =>
      simp only [List.foldr, List.length_cons, ih]
      omega
  unfold bytesHex
  show (bs.foldr (fun b acc => hexDigit (b / 16 % 16) :: hexDigit (b % 16) :: acc) []).length
      = 2 * bs.length
  exact key bs

theorem length_md5hex (s : String) : (md5hex s).length = 32 := by
  unfold md5hex
  rw [length_bytesHex, length_md5Digest]

theorem lexOrderedConcat_eq_of_perm {d1 d2 : PyDict} (hp : d1.Perm d2)
    (hnd : (d1.map Prod.fst).Nodup) : lexOrderedConcat d1 = lexOrderedConcat d2 := by
  unfold lexOrderedConcat
  rw [sortPairs_eq_of_perm hp hnd]

theorem nodup_keys_append_secret {d : PyDict} {s : String}
    (hnd : (d.map Prod.fst).Nodup) (habs : d.lookup "apiSecret" = none) :
    ((d ++ [("apiSecret", PyVal.pstr s)]).map Prod.fst).Nodup := by
  have hnm : "apiSecret" ∉ d.map Prod.fst := lookup_eq_none_iff.mp habs
  rw [List.map_append]
  rw [List.nodup_append]
  refine ⟨hnd, by simp, ?_⟩
  intro a ha hb
  simp only [List.map_cons, List.map_nil, List.mem_singleton] at hb
  subst hb
  exact hnm ha

/-- C1: vcx_sign returns the lowercase hex MD5 digest of the
concatenation of the string representations of all values, including
the injected secret under the reserved key apiSecret when the payload
lacks it, taken in lexicographic order of the keys; consequently the
signature is invariant under reordering of the entries of the payload
mapping. -/
theorem C1_sign_is_sorted_md5 :
    (∀ (d : PyDict) (s : String), (d.map Prod.fst).Nodup →
        vcx_sign d (some s) = .ok (md5hex (lexOrderedConcat (withSecret d s)))) ∧
    (∀ (d1 d2 : PyDict) (s : Option String), d1.Perm d2 → (d1.map Prod.fst).Nodup →
        vcx_sign d1 s = vcx_sign d2 s) := by
  constructor
  · intro d s hnd
    unfold vcx_sign withSecret
    cases hc : d.lookup "apiSecret" with
    | some v =>
      simp only [hc, Option.isSome_some, if_true]
      rw [valStr_eq_lexOrderedConcat hnd]
    | none =>
      simp only [hc, Option.isSome_none, Bool.false_eq_true, if_false]
      rw [valStr_eq_lexOrderedConcat (nodup_keys_append_secret hnd hc)]
  · intro d1 d2 s hp hnd
    have hnd2 : (d2.map Prod.fst).Nodup := (hp.map Prod.fst).nodup_iff.mp hnd
    have hlk : d1.lookup "apiSecret" = d2.lookup "apiSecret" := lookup_eq_of_perm hp hnd _
    unfold vcx_sign
    cases hc : d1.lookup "apiSecret" with
    | some v =>
      rw [hlk] at hc
      simp only [hc, hlk, Option.isSome_some, if_true]
      rw [valStr_eq_lexOrderedConcat hnd, valStr_eq_lexOrderedConcat hnd2,
        lexOrderedConcat_eq_of_perm hp hnd]
    | none =>
      have hc2 : d2.lookup "apiSecret" = none := hlk ▸ hc
      simp only [hc, hc2, Option.isSome_none, Bool.false_eq_true, if_false]
      cases s with
      | none => rfl
      | some str =>
        have hperm : (d1 ++ [("apiSecret", PyVal.pstr str)]).Perm
            (d2 ++ [("apiSecret", PyVal.pstr str)]) := hp.append_right _
        show Except.ok (md5hex (valStr (d1 ++ [("apiSecret", PyVal.pstr str)])))
            = (Except.ok (md5hex (valStr (d2 ++ [("apiSecret", PyVal.pstr str)])))
                : Except String String)
        rw [valStr_eq_lexOrderedConcat (nodup_keys_append_secret hnd hc),
          valStr_eq_lexOrderedConcat (nodup_keys_append_secret hnd2 hc2),
          lexOrderedConcat_eq_of_perm hperm (nodup_keys_append_secret hnd hc)]

/-- Witness for C1 at a concrete payload: the signature is the MD5 of
the key-sorted concatenation, and the two insertion orders of the same
entries sign identically. -/
theorem C1_witness :
    vcx_sign [("symbol", .pstr "BTC"), ("apiKey", .pstr "k")] (some "sec")
        = .ok (md5hex (lexOrderedConcat
            (withSecret [("symbol", .pstr "BTC"), ("apiKey", .pstr "k")] "sec"))) ∧
    vcx_sign [("symbol", .pstr "BTC"), ("apiKey", .pstr "k")] (some "sec")
        = vcx_sign [("apiKey", .pstr "k"), ("symbol", .pstr "BTC")] (some "sec") :=
  ⟨C1_sign_is_sorted_md5.1 _ "sec" (by decide),
   C1_sign_is_sorted_md5.2 _ _ (some "sec") (by decide) (by decide)⟩

/-- C8: vcx_sign raises the usage error exactly when the payload lacks
the apiSecret field and the fallback secret is absent; whenever a
secret is available from either source it returns a 32-character hex
signature (in particular never an empty one). -/
theorem C8_secret_required :
    ∀ (d : PyDict) (s : Option String),
      (vcx_sign d s = .error "API secret is required" ↔
        (d.lookup "apiSecret" = none ∧ s = none)) ∧
      (((d.lookup "apiSecret").isSome ∨ s.isSome) →
        ∃ sig, vcx_sign d s = .ok sig ∧ sig.length = 32) := by
  intro d s
  cases hc : d.lookup "apiSecret" with
  | some v =>
    constructor
    · simp [vcx_sign, hc]
    · intro _
      exact ⟨md5hex (valStr d), by simp [vcx_sign, hc], length_md5hex _⟩
  | none =>
    cases s with
    | none =>
      constructor
      · simp [vcx_sign, hc]
      · intro h
        rcases h with h | h <;> simp [hc] at h
    | some str =>
      constructor
      · simp [vcx_sign, hc]
      · intro _
        exact ⟨md5hex (valStr (d ++ [("apiSecret", PyVal.pstr str)])),
          by simp [vcx_sign, hc], length_md5hex _⟩

/-- Witness for C8: with no secret from either source signing fails
with the usage error; with a fallback secret it returns a 32-character
signature. -/
theorem C8_witness :
    vcx_sign [] none = .error "API secret is required" ∧
    ∃ sig, vcx_sign [] (some "s") = .ok sig ∧ sig.length = 32 :=
  ⟨(C8_secret_required [] none).1.mpr ⟨rfl, rfl⟩,
   (C8_secret_required [] (some "s")).2 (Or.inr rfl)⟩

/-- C10: when the payload itself contains the apiSecret key, vcx_sign
succeeds with no fallback secret, signs the payload exactly as given
(using the payload's own apiSecret value, with nothing injected), and
ignores any fallback secret that is also supplied; the caller's mapping
is passed through unchanged (the source mutates only its copy). -/
theorem C10_existing_secret :
    ∀ (d : PyDict) (v : PyVal), ("apiSecret", v) ∈ d → (d.map Prod.fst).Nodup →
      vcx_sign d none = .ok (md5hex (lexOrderedConcat d)) ∧
      (∀ s, vcx_sign d (some s) = vcx_sign d none) := by
  intro d v hmem hnd
  have hc : d.lookup "apiSecret" = some v := lookup_eq_some_of_mem hmem hnd
  constructor
  · unfold vcx_sign
    simp only [hc, Option.isSome_some, if_true]
    rw [valStr_eq_lexOrderedConcat hnd]
  · intro s
    unfold vcx_sign
    simp [hc]

/-- Witness for C10 at a concrete payload that already carries
apiSecret. -/
theorem C10_witness :
    vcx_sign [("apiSecret", .pstr "x"), ("apiKey", .pstr "k")] none
        = .ok (md5hex (lexOrderedConcat [("apiSecret", .pstr "x"), ("apiKey", .pstr "k")])) ∧
    vcx_sign [("apiSecret", .pstr "x"), ("apiKey", .pstr "k")] (some "other")
        = vcx_sign [("apiSecret", .pstr "x"), ("apiKey", .pstr "k")] none := by
  have h := C10_existing_secret [("apiSecret", .pstr "x"), ("apiKey", .pstr "k")]
    (.pstr "x") (by decide) (by decide)
  exact ⟨h.1, h.2 "other"⟩

/-! ## Helper lemmas: the dict and list branches of output_enumify -/

theorem enumifyPairs_eq_mapM (m : String → Option (Json → Except String Json)) :
    ∀ kvs, enumifyPairs m kvs = kvs.mapM (entryResult m)
  | [] => rfl
  | (k, v) :: rest => by
    rw [List.mapM_cons, ← enumifyPairs_eq_mapM m rest]
    simp only [enumifyPairs]
    cases hm : m k with
    | none =>
      cases hr : enumifyPairs m rest <;>
        simp [entryResult, hm, hr, Bind.bind, Except.bind, pure, Except.pure]
    | some f =>
      cases hf : f v with
      | error e => simp [entryResult, hm, hf, Bind.bind, Except.bind, Except.map]
      | ok w =>
        cases hr : enumifyPairs m rest <;>
          simp [entryResult, hm, hf, hr, Bind.bind, Except.bind, Except.map, pure, Except.pure]

theorem enumifyList_eq_mapM (typ : Bool) :
    ∀ xs, enumifyList xs typ = xs.mapM (fun x => output_enumify x typ)
  | [] => rfl
  | x :: rest => by
    rw [List.mapM_cons, ← enumifyList_eq_mapM typ rest]
    rw [enumifyList]
    cases hx : output_enumify x typ with
    | error e => simp [Bind.bind, Except.bind]
    | ok y =>
      cases hr : enumifyList rest typ <;>
        simp [Bind.bind, Except.bind, pure, Except.pure]

/-- C2 counterexample: the formatter does not walk dicts nested inside
dicts. On the payload with an unmapped key whose value is a dict
carrying a mapped key, output_enumify returns the input unchanged,
while the recursive walk the claim describes would decode the nested
status value; the two outputs differ. -/
theorem C2_counterexample :
    output_enumify (.jdict [("a", .jdict [("status", .jint 1)])]) true
        = .ok (.jdict [("a", .jdict [("status", .jint 1)])]) ∧
    enumify_deep (.jdict [("a", .jdict [("status", .jint 1)])]) true
        = .ok (.jdict [("a", .jdict [("status", .jstatus .OPEN)])]) ∧
    (Except.ok (Json.jdict [("a", .jdict [("status", .jint 1)])]) : Except String Json)
        ≠ .ok (.jdict [("a", .jdict [("status", .jstatus .OPEN)])]) := by
  refine ⟨?_, ?_, ?_⟩
  · simp [output_enumify, enumifyPairs, keyToEnum, TYPICAL_KEY_TO_ENUM, Except.map]
  · simp [enumify_deep, deepPairs, keyToEnum, TYPICAL_KEY_TO_ENUM, OrderStatus.ofJson,
      OrderStatus.ofInt, Except.map]
  · simp

/-- C2 amended: the result formatter maps a dict node over its
immediate entries only: a value under a key in the active mapping is
replaced by the enum parser applied to the raw value, a value under an
unknown key passes through unchanged without being recursed into (in
particular a dict nested inside a dict is not walked); list nodes are
mapped element-wise with the full recursion, and scalar nodes pass
through unchanged. -/
theorem C2_amended :
    ∀ (typ : Bool),
      (∀ kvs, output_enumify (.jdict kvs) typ
          = (kvs.mapM (entryResult (keyToEnum typ))).map Json.jdict) ∧
      (∀ k v, keyToEnum typ k = none → entryResult (keyToEnum typ) (k, v) = .ok (k, v)) ∧
      (∀ k v f, keyToEnum typ k = some f →
          entryResult (keyToEnum typ) (k, v) = (f v).map (fun w => (k, w))) ∧
      (∀ xs, output_enumify (.jlist xs) typ
          = (xs.mapM (fun x => output_enumify x typ)).map Json.jlist) ∧
      (∀ n, output_enumify (.jint n) typ = .ok (.jint n)) ∧
      (∀ s, output_enumify (.jstr s) typ = .ok (.jstr s)) ∧
      (∀ b, output_enumify (.jbool b) typ = .ok (.jbool b)) ∧
      (output_enumify .jnull typ = .ok .jnull) := by
  intro typ
  refine ⟨?_, ?_, ?_, ?_, ?_, ?_, ?_, ?_⟩
  · intro kvs
    rw [output_enumify, enumifyPairs_eq_mapM]
  · intro k v hm
    simp [entryResult, hm]
  · intro k v f hm
    simp [entryResult, hm]
  · intro xs
    rw [output_enumify, enumifyList_eq_mapM]
  · intro n
    rfl
  · intro s
    rfl
  · intro b
    rfl
  · rfl

/-- Witness for C2 amended at concrete inputs: a mapped key is decoded
in place, an unmapped key passes through, and a singleton list recurses
into its element. -/
theorem C2_witness :
    entryResult (keyToEnum true) ("foo", .jint 3) = .ok ("foo", .jint 3) ∧
    entryResult (keyToEnum true) ("status", .jint 1)
        = (OrderStatus.ofJson (.jint 1)).map (fun w => ("status", w)) ∧
    output_enumify (.jlist [.jnull]) true
        = (([Json.jnull].mapM (fun x => output_enumify x true)).map Json.jlist) :=
  ⟨(C2_amended true).2.1 "foo" (.jint 3) rfl,
   (C2_amended true).2.2.1 "status" (.jint 1) OrderStatus.ofJson rfl,
   (C2_amended true).2.2.2.1 [.jnull]⟩

/-- C7: the wrapped call fails with the transport-status error kind
(carrying the status code and the raw body) on every non-200 status,
whatever the body holds, before any JSON parsing; on a 200 status with
a parsed envelope it fails with the application-error kind (carrying
the code and the whole envelope) exactly when the code field is
non-zero, and on code zero returns the enum-transformed data field. -/
theorem C7_formatter_error_kinds :
    ∀ (typ : Bool) (res : Response),
      (res.status_code ≠ 200 →
        result_formatter typ res = .error (.statusException res.status_code res.text)) ∧
      (∀ j c, res.status_code = 200 → res.body = some j → jsonGet j "code" = some c →
        (pyEqZero c = false → result_formatter typ res = .error (.apiError c j)) ∧
        (pyEqZero c = true → ∀ d, jsonGet j "data" = some d →
          result_formatter typ res
            = (output_enumify d typ).mapError FmtError.valueError)) := by
  intro typ res
  constructor
  · intro hne
    simp [result_formatter, hne]
  · intro j c h200 hbody hcode
    constructor
    · intro hz
      simp [result_formatter, h200, hbody, hcode, hz]
    · intro hz d hdata
      simp [result_formatter, h200, hbody, hcode, hz, hdata]

/-- Witness for C7: a 404 with an unparseable body fails with the
status exception without JSON parsing; a 200 envelope with code 7
fails with the application error. -/
theorem C7_witness :
    result_formatter true ⟨404, "not found", none⟩
        = .error (.statusException 404 "not found") ∧
    result_formatter true ⟨200, "",
        some (.jdict [("code", .jint 7), ("msg", .jstr "x")])⟩
        = .error (.apiError (.jint 7) (.jdict [("code", .jint 7), ("msg", .jstr "x")])) :=
  ⟨(C7_formatter_error_kinds true ⟨404, "not found", none⟩).1 (by decide),
   ((C7_formatter_error_kinds true ⟨200, "",
        some (.jdict [("code", .jint 7), ("msg", .jstr "x")])⟩).2
      (.jdict [("code", .jint 7), ("msg", .jstr "x")]) (.jint 7) rfl rfl rfl).1 rfl⟩

/-- C9: formatting the 200 envelope with code 0 and data containing a
status field of 1 under the typical mapping decodes the status to the
OrderStatus member OPEN (integer value 1), while an unmapped key keeps
its raw value. -/
theorem C9_typical_status_decode :
    result_formatter true ⟨200, "", some (.jdict [("code", .jint 0),
        ("data", .jdict [("status", .jint 1), ("foo", .jint 42)])])⟩
      = .ok (.jdict [("status", .jstatus .OPEN), ("foo", .jint 42)]) ∧
    OrderStatus.val .OPEN = 1 := by
  constructor
  · simp [result_formatter, jsonGet, List.lookup, pyEqZero, output_enumify, enumifyPairs,
      keyToEnum, TYPICAL_KEY_TO_ENUM, OrderStatus.ofJson, OrderStatus.ofInt, Except.map,
      Except.mapError]
  · rfl

/-! ## Helper lemmas: the half-even rounding never drops below a grid
point that lies at or under the value -/

theorem roundHalfEven_ge_floor (x : ℚ) : ⌊x⌋ ≤ roundHalfEven x := by
  unfold roundHalfEven
  split_ifs <;> omega

theorem pyRound_ge_of_grid_le {m x : ℚ} {n : Nat} (hle : m ≤ x)
    (hgrid : ∃ z : ℤ, (z : ℚ) = m * 10 ^ n) : m ≤ pyRound x n := by
  obtain ⟨z, hz⟩ := hgrid
  unfold pyRound
  have hpow : (0 : ℚ) < 10 ^ n := by positivity
  rw [le_div_iff₀ hpow]
  have h0 : (z : ℚ) ≤ x * 10 ^ n := by
    rw [hz]
    exact mul_le_mul_of_nonneg_right hle (le_of_lt hpow)
  have h1 : z ≤ ⌊x * 10 ^ n⌋ := Int.le_floor.mpr h0
  have h2 : z ≤ roundHalfEven (x * 10 ^ n) := le_trans h1 (roundHalfEven_ge_floor _)
  calc m * 10 ^ n = (z : ℚ) := hz.symm
    _ ≤ (roundHalfEven (x * 10 ^ n) : ℚ) := by exact_mod_cast h2

/-- C3: place_order for a limit order with price omitted raises the
price ValueError whatever the other arguments are; with price set and
qty omitted it raises a usage error (the qty ValueError without
conversion handling, a TypeError when conversion handling is on but
total is absent) unless conversion handling is enabled and total is
present, in which case qty is derived as total/price and total is
dropped from the request; limit orders never read the fetched market
quote, so all of this happens before any network call. -/
theorem C3_limit_validation :
    ∀ (fmt : List (String × FmtData)) (symbol : String) (direction : Int)
      (qty total : Option ℚ) (hcv : Bool) (mk : Option ℚ) (q1 q2 : Quote),
      (place_order fmt symbol OrderType.LIMIT.val direction none qty total hcv mk q1
          = .error (.valueError "Price is required for limit orders") ∧
        (POErr.valueError "Price is required for limit orders").isUsage = true) ∧
      (∀ p : ℚ, place_order fmt symbol OrderType.LIMIT.val direction (some p) none total
          false mk q1
          = .error (.valueError "Quantity is required for limit orders")) ∧
      (∀ p : ℚ, place_order fmt symbol OrderType.LIMIT.val direction (some p) none none
          true mk q1
          = .error (.typeError "unsupported operand type for division") ∧
        (POErr.typeError "unsupported operand type for division").isUsage = true) ∧
      (∀ (p t : ℚ) (fd : FmtData), fmt.lookup symbol = some fd → p ≠ 0 →
        decimalLen (t / p) ≤ fd.qty_decimals →
        ∃ r, place_order fmt symbol OrderType.LIMIT.val direction (some p) none (some t)
            true mk q1 = .ok r ∧ r.qty = some (t / p) ∧ r.total = none) ∧
      (∀ (category : Int) (price qty2 total2 : Option ℚ),
        category = OrderType.LIMIT.val →
        place_order fmt symbol category direction price qty2 total2 hcv mk q1
          = place_order fmt symbol category direction price qty2 total2 hcv mk q2) := by
  intro fmt symbol direction qty total hcv mk q1 q2
  refine ⟨⟨?_, rfl⟩, ?_, ?_, ?_, ?_⟩
  · simp [place_order, convertArgs]
  · intro p
    simp [place_order, convertArgs]
  · intro p
    exact ⟨by simp [place_order, convertArgs], rfl⟩
  · intro p t fd hlk hp hdec
    have hnd : ¬ decimalLen (t / p) > fd.qty_decimals := not_lt.mpr hdec
    refine ⟨⟨symbol, OrderType.LIMIT.val, direction, 1,
        some (correctedVal p fd.price_decimals), some (correctedVal (t / p) fd.qty_decimals),
        none, warnVal p fd.price_decimals, warnVal (t / p) fd.qty_decimals, false⟩,
      ?_, ?_, rfl⟩
    · simp [place_order, convertArgs, hp, hlk]
    · simp [correctedVal, hnd]
  · intro category price qty2 total2 hcat
    subst hcat
    simp [place_order, convertArgs]

/-- Witness for C3 at concrete arguments: the three failing shapes
return their usage errors, and the conversion case derives qty as
total/price with total dropped. -/
theorem C3_witness :
    place_order [] "BTC" OrderType.LIMIT.val 1 none none none true none ⟨0, 0⟩
        = .error (.valueError "Price is required for limit orders") ∧
    place_order [] "BTC" OrderType.LIMIT.val 1 (some 1) none (some 5) false none ⟨0, 0⟩
        = .error (.valueError "Quantity is required for limit orders") ∧
    place_order [] "BTC" OrderType.LIMIT.val 1 (some 1) none none true none ⟨0, 0⟩
        = .error (.typeError "unsupported operand type for division") ∧
    ∃ r, place_order [("BTC", ⟨2, 2, 1⟩)] "BTC" OrderType.LIMIT.val 1 (some 1) none
        (some 5) true none ⟨0, 0⟩ = .ok r ∧ r.qty = some ((5 : ℚ) / 1) ∧ r.total = none :=
  ⟨(C3_limit_validation [] "BTC" 1 none none true none ⟨0, 0⟩ ⟨0, 0⟩).1.1,
   (C3_limit_validation [] "BTC" 1 none (some 5) false none ⟨0, 0⟩ ⟨0, 0⟩).2.1 1,
   ((C3_limit_validation [] "BTC" 1 none none true none ⟨0, 0⟩ ⟨0, 0⟩).2.2.1 1).1,
   (C3_limit_validation [("BTC", ⟨2, 2, 1⟩)] "BTC" 1 none (some 5) true none
      ⟨0, 0⟩ ⟨0, 0⟩).2.2.2.1 1 5 ⟨2, 2, 1⟩ (by decide) (by decide)
      (by rw [div_one]; decide)⟩

/-- C4 amended: when the supplied total survives conversion handling
(it is not consumed by the limit-order qty derivation), a total below
min_total raises the ValueError before any rounding and independently
of the market quote (so before any network call); and every total that
is actually placed in a transmitted payload is at least min_total
provided min_total is representable within price_decimals decimal
places. -/
theorem C4_amended :
    (∀ (fmt : List (String × FmtData)) (symbol : String) (fd : FmtData)
        (category direction : Int) (price qty : Option ℚ) (t : ℚ) (hcv : Bool)
        (mk : Option ℚ),
      fmt.lookup symbol = some fd →
      t < fd.min_total →
      (category = OrderType.LIMIT.val → price.isSome ∧ qty.isSome) →
      ∀ quote : Quote,
        place_order fmt symbol category direction price qty (some t) hcv mk quote
          = .error (.valueError "Total is below the minimum allowed")) ∧
    (∀ (fmt : List (String × FmtData)) (symbol : String) (fd : FmtData)
        (category direction : Int) (price qty total : Option ℚ) (hcv : Bool)
        (mk : Option ℚ) (quote : Quote) (r : OrderRequest) (t2 : ℚ),
      fmt.lookup symbol = some fd →
      place_order fmt symbol category direction price qty total hcv mk quote = .ok r →
      r.total = some t2 →
      (∃ z : ℤ, (z : ℚ) = fd.min_total * 10 ^ fd.price_decimals) →
      fd.min_total ≤ t2) := by
  constructor
  · intro fmt symbol fd category direction price qty t hcv mk hlk hlt hlim quote
    by_cases hcat : category = OrderType.LIMIT.val
    · obtain ⟨hp, hq⟩ := hlim hcat
      obtain ⟨p, hp2⟩ := Option.isSome_iff_exists.mp hp
      obtain ⟨q, hq2⟩ := Option.isSome_iff_exists.mp hq
      subst hp2
      subst hq2
      simp [place_order, convertArgs, hcat, hlk, hlt]
    · simp [place_order, convertArgs, hcat, hlk, hlt]
  · intro fmt symbol fd category direction price qty total hcv mk quote r t2 hlk hok
      htot hgrid
    cases hconv : convertArgs category direction price qty total hcv mk quote with
    | error e =>
      simp only [place_order, hconv] at hok
      exact Except.noConfusion hok
    | ok triple =>
      obtain ⟨p2, q2, t3⟩ := triple
      cases t3 with
      | none =>
        simp only [place_order, hconv, hlk] at hok
        rw [← Except.ok.inj hok] at htot
        simp at htot
      | some tv =>
        simp only [place_order, hconv, hlk] at hok
        split_ifs at hok with hlt
        rw [← Except.ok.inj hok] at htot
        simp only [Option.some.injEq] at htot
        rw [← htot]
        unfold correctedVal
        split_ifs with hd
        · exact pyRound_ge_of_grid_le (le_of_not_lt hlt) hgrid
        · exact le_of_not_lt hlt

/-- Witness for C4 amended at concrete arguments: a surviving total of
5 against a min_total of 10 raises the ValueError, and a successful
concrete order's placed total is bounded below by min_total. -/
theorem C4_witness :
    place_order [("BTC", ⟨2, 2, 10⟩)] "BTC" OrderType.MARKET.val OrderDirection.SELL.val
        none none (some 5) true none ⟨0, 0⟩
      = .error (.valueError "Total is below the minimum allowed") ∧
    (10 : ℚ) ≤ 11 :=
  ⟨C4_amended.1 [("BTC", ⟨2, 2, 10⟩)] "BTC" ⟨2, 2, 10⟩ OrderType.MARKET.val
      OrderDirection.SELL.val none none 5 true none (by decide) (by decide)
      (fun hcat => absurd hcat (by decide)) ⟨0, 0⟩,
   C4_amended.2 [("BTC", ⟨2, 2, 10⟩)] "BTC" ⟨2, 2, 10⟩ OrderType.MARKET.val
      OrderDirection.SELL.val none none (some 11) true none ⟨0, 0⟩
      ⟨"BTC", OrderType.MARKET.val, OrderDirection.SELL.val, 1, none, none, some 11,
        false, false, false⟩ 11 (by decide) (by decide) rfl
      ⟨1000, by norm_num⟩⟩

/-- C4 counterexample: the claim fails on the code in both halves. A
limit order with conversion handling and qty omitted consumes a
supplied total of 5 below the min_total of 10 without any error (the
order is placed); and with min_total 10.004 and two price decimals a
supplied total of exactly 10.004 passes the check but is rounded down
to 10.0, so the transmitted total is below min_total. -/
theorem C4_counterexample :
    ((place_order [("BTC", ⟨2, 2, 10⟩)] "BTC" OrderType.LIMIT.val OrderDirection.BUY.val
        (some 1) none (some 5) true none ⟨0, 0⟩).isOk = true ∧
      Except.map (fun r => r.total)
        (place_order [("BTC", ⟨2, 2, 10⟩)] "BTC" OrderType.LIMIT.val OrderDirection.BUY.val
          (some 1) none (some 5) true none ⟨0, 0⟩) = .ok none ∧
      (5 : ℚ) < 10) ∧
    (Except.map (fun r => r.total)
        (place_order [("BTC", ⟨2, 2, mkRat 10004 1000⟩)] "BTC" OrderType.MARKET.val
          OrderDirection.SELL.val none none (some (mkRat 10004 1000)) true none ⟨0, 0⟩)
      = .ok (some (pyRound (mkRat 10004 1000) 2)) ∧
      pyRound (mkRat 10004 1000) 2 < mkRat 10004 1000) := by
  refine ⟨⟨rfl, rfl, by decide⟩, rfl, ?_⟩
  have hpy : pyRound (mkRat 10004 1000) 2 = 10 := by
    unfold pyRound roundHalfEven
    norm_num [Rat.mkRat_eq_div]
  rw [hpy]
  decide

/-- C5 amended: a supplied price (or qty) carrying more decimal places
than the symbol allows is rounded to the allowed precision with
Python round (round-half-to-even) rather than truncated toward zero,
the non-fatal precision warning is emitted, and the order still
proceeds. -/
theorem C5_amended :
    ∀ (fmt : List (String × FmtData)) (symbol : String) (fd : FmtData) (v : ℚ)
      (hcv : Bool) (mk : Option ℚ) (quote : Quote),
      fmt.lookup symbol = some fd →
      (decimalLen v > fd.price_decimals →
        place_order fmt symbol OrderType.MARKET.val OrderDirection.SELL.val (some v) none
            none hcv mk quote
          = .ok ⟨symbol, OrderType.MARKET.val, OrderDirection.SELL.val, 1,
              some (pyRound v fd.price_decimals), none, none, true, false, false⟩) ∧
      (decimalLen v > fd.qty_decimals →
        place_order fmt symbol OrderType.MARKET.val OrderDirection.SELL.val none (some v)
            none hcv mk quote
          = .ok ⟨symbol, OrderType.MARKET.val, OrderDirection.SELL.val, 1,
              none, some (pyRound v fd.qty_decimals), none, false, true, false⟩) := by
  intro fmt symbol fd v hcv mk quote hlk
  constructor
  · intro hdec
    simp [place_order, convertArgs, OrderType.val, OrderDirection.val, hlk, correctedVal,
      warnVal, hdec]
  · intro hdec
    simp [place_order, convertArgs, OrderType.val, OrderDirection.val, hlk, correctedVal,
      warnVal, hdec]

/-- Witness for C5 amended: a price of 1.236 against two allowed
decimals is rounded (with a warning) and the order succeeds, and a qty
of 1.236 against two allowed decimals likewise. -/
theorem C5_witness :
    place_order [("BTC", ⟨2, 2, 0⟩)] "BTC" OrderType.MARKET.val OrderDirection.SELL.val
        (some (mkRat 1236 1000)) none none true none ⟨0, 0⟩
      = .ok ⟨"BTC", OrderType.MARKET.val, OrderDirection.SELL.val, 1,
          some (pyRound (mkRat 1236 1000) 2), none, none, true, false, false⟩ ∧
    place_order [("BTC", ⟨2, 2, 0⟩)] "BTC" OrderType.MARKET.val OrderDirection.SELL.val
        none (some (mkRat 1236 1000)) none true none ⟨0, 0⟩
      = .ok ⟨"BTC", OrderType.MARKET.val, OrderDirection.SELL.val, 1,
          none, some (pyRound (mkRat 1236 1000) 2), none, false, true, false⟩ :=
  ⟨(C5_amended [("BTC", ⟨2, 2, 0⟩)] "BTC" ⟨2, 2, 0⟩ (mkRat 1236 1000) true none ⟨0, 0⟩
      (by decide)).1 (by decide),
   (C5_amended [("BTC", ⟨2, 2, 0⟩)] "BTC" ⟨2, 2, 0⟩ (mkRat 1236 1000) true none ⟨0, 0⟩
      (by decide)).2 (by decide)⟩

/-- C5 counterexample: the correction is not a truncation. A price of
1.236 with two allowed decimal places is placed as 1.24 (Python round,
to nearest), whereas rounding down would give 1.23; the two differ. -/
theorem C5_counterexample :
    place_order [("BTC", ⟨2, 8, 0⟩)] "BTC" OrderType.MARKET.val OrderDirection.SELL.val
        (some (mkRat 1236 1000)) none none true none ⟨0, 0⟩
      = .ok ⟨"BTC", OrderType.MARKET.val, OrderDirection.SELL.val, 1,
          some (pyRound (mkRat 1236 1000) 2), none, none, true, false, false⟩ ∧
    pyRound (mkRat 1236 1000) 2 = mkRat 124 100 ∧
    truncateTo (mkRat 1236 1000) 2 = mkRat 123 100 ∧
    pyRound (mkRat 1236 1000) 2 ≠ truncateTo (mkRat 1236 1000) 2 := by
  have h1 : pyRound (mkRat 1236 1000) 2 = mkRat 124 100 := by
    unfold pyRound roundHalfEven
    norm_num [Rat.mkRat_eq_div]
  have h2 : truncateTo (mkRat 1236 1000) 2 = mkRat 123 100 := by
    unfold truncateTo
    norm_num [Rat.mkRat_eq_div]
  refine ⟨rfl, h1, h2, ?_⟩
  rw [h1, h2]
  decide

/-- C6 amended: for a non-limit order, a missing total on a buy raises
the total ValueError when conversion handling is off (independently of
the market quote, hence before any network call); with conversion
handling on, total is derived as qty times the discounted market price
fetched for the symbol (the ask price for a buy, the bid price
otherwise) and qty is dropped. A missing qty in the other non-limit
cases is NOT validated: in particular a sell with qty omitted proceeds
to the payload without any local error. -/
theorem C6_amended :
    ∀ (fmt : List (String × FmtData)) (symbol : String) (category : Int)
      (price qty : Option ℚ) (hcv : Bool) (mk : Option ℚ) (q1 q2 : Quote),
      category ≠ OrderType.LIMIT.val →
      ((place_order fmt symbol category OrderDirection.BUY.val price qty none false mk q1
          = .error (.valueError "Total is required for non-limit buy orders") ∧
        (POErr.valueError "Total is required for non-limit buy orders").isUsage = true) ∧
      (place_order fmt symbol category OrderDirection.BUY.val price qty none false mk q1
          = place_order fmt symbol category OrderDirection.BUY.val price qty none false
              mk q2) ∧
      (∀ (q : ℚ) (fd : FmtData), fmt.lookup symbol = some fd →
        ¬ (q * q1.Ask < fd.min_total) →
        decimalLen (q * q1.Ask) ≤ fd.price_decimals →
        place_order fmt symbol category OrderDirection.BUY.val none (some q) none true
            none q1
          = .ok ⟨symbol, category, OrderDirection.BUY.val, 1, none, none,
              some (q * q1.Ask), false, false, false⟩) ∧
      (__extract_market_price__ OrderDirection.BUY.val q1 = q1.Ask ∧
        __extract_market_price__ OrderDirection.SELL.val q1 = q1.Bid) ∧
      (∀ fd : FmtData, fmt.lookup symbol = some fd →
        place_order fmt symbol category OrderDirection.SELL.val none none none hcv mk q1
          = .ok ⟨symbol, category, OrderDirection.SELL.val, 1, none, none, none,
              false, false, false⟩)) := by
  intro fmt symbol category price qty hcv mk q1 q2 hcat
  refine ⟨⟨?_, rfl⟩, ?_, ?_, ⟨rfl, rfl⟩, ?_⟩
  · simp [place_order, convertArgs, hcat, OrderDirection.val]
  · simp [place_order, convertArgs, hcat, OrderDirection.val]
  · intro q fd hlk hmin hdec
    have hnd : ¬ decimalLen (q * q1.Ask) > fd.price_decimals := not_lt.mpr hdec
    simp [place_order, convertArgs, hcat, OrderDirection.val, __extract_market_price__,
      hlk, hmin, correctedVal, warnVal, hnd]
  · intro fd hlk
    simp [place_order, convertArgs, hcat, OrderDirection.val, hlk]

/-- Witness for C6 amended at concrete arguments: the buy without total
and without conversions fails with its ValueError; with conversions the
total becomes qty times the fetched ask and qty is dropped; the sell
with qty omitted succeeds with an empty payload tail. -/
theorem C6_witness :
    place_order [("BTC", ⟨2, 2, 0⟩)] "BTC" OrderType.MARKET.val OrderDirection.BUY.val
        none none none false none ⟨5, 7⟩
      = .error (.valueError "Total is required for non-limit buy orders") ∧
    place_order [("BTC", ⟨2, 2, 0⟩)] "BTC" OrderType.MARKET.val OrderDirection.BUY.val
        none (some 1) none true none ⟨5, 7⟩
      = .ok ⟨"BTC", OrderType.MARKET.val, OrderDirection.BUY.val, 1, none, none,
          some ((1 : ℚ) * 5), false, false, false⟩ ∧
    place_order [("BTC", ⟨2, 2, 0⟩)] "BTC" OrderType.MARKET.val OrderDirection.SELL.val
        none none none true none ⟨5, 7⟩
      = .ok ⟨"BTC", OrderType.MARKET.val, OrderDirection.SELL.val, 1, none, none, none,
          false, false, false⟩ :=
  ⟨((C6_amended [("BTC", ⟨2, 2, 0⟩)] "BTC" OrderType.MARKET.val none none true none
      ⟨5, 7⟩ ⟨5, 7⟩ (by decide)).1).1,
   (C6_amended [("BTC", ⟨2, 2, 0⟩)] "BTC" OrderType.MARKET.val none none true none
      ⟨5, 7⟩ ⟨5, 7⟩ (by decide)).2.2.1 1 ⟨2, 2, 0⟩ (by decide)
      (by rw [one_mul]; decide) (by rw [one_mul]; decide),
   (C6_amended [("BTC", ⟨2, 2, 0⟩)] "BTC" OrderType.MARKET.val none none true none
      ⟨5, 7⟩ ⟨5, 7⟩ (by decide)).2.2.2.2 ⟨2, 2, 0⟩ (by decide)⟩

/-- C6 counterexample: a market sell with qty (and total) omitted does
not raise any usage error before the network call; the order request is
assembled and posted with neither field, contradicting the claim that a
missing qty in non-limit non-buy cases is rejected. -/
theorem C6_counterexample :
    place_order [("BTC", ⟨2, 2, 10⟩)] "BTC" OrderType.MARKET.val OrderDirection.SELL.val
        none none none true none ⟨0, 0⟩
      = .ok ⟨"BTC", OrderType.MARKET.val, OrderDirection.SELL.val, 1, none, none, none,
          false, false, false⟩ := by
  decide
